import Mathlib

/-!
Verification development for the `plotorder` download tool.

The Go sources are shallowly embedded: every definition below mirrors one
function of the repository (file and line references are given in the doc
comments).  Machine integers are modelled as `Nat`/`Int`; file contents are
byte lists (`List Nat`); the Blake2b-512 digest is kept abstract as a
parameter `hashFn : List Nat → String` because the claims under study are
about which bytes get hashed and compared, never about the digest itself.
-/

namespace Plotorder

/-- Download states of a plot, from `src/plot/plot.go` lines 32-48. -/
inductive DownloadState where
  | lookingForDownloadDirectory
  | notStarted
  | waitingForHashes
  | preparing
  | ready
  | downloading
  | downloaded
  | failed
  | initialValidation
  | liveValidation
  | failedValidation
  | enqueued
deriving DecidableEq, Repr

/-- `hashChunkSize` from `src/plot/plot.go` line 51: chunks of 10^10 bytes. -/
def hashChunkSize : Nat := 10000000000

/--
The fields of `Plot` (`src/plot/plot.go` lines 58-91) that the verified
operations read or write.  `file` is the content of the partial file behind
the handle `p.f`; its length is what `p.f.Stat()`/`getDownloadedBytes`
report.  Sizes are `Nat` because they come from `Stat`/`Content-Length`
and are never negative; `truncateFrom` keeps the source's `*int64` type.
-/
structure Plot where
  fileChunkHashes : List String
  downloadState : DownloadState
  downloadSize : Nat
  file : List Nat
  truncateFrom : Option Int
  downloadError : Bool
deriving DecidableEq, Repr

/--
Bytes produced by `handle.Seek(start, io.SeekStart)` followed by
`io.LimitReader(handle, hashChunkSize)`: the file bytes from `start`,
at most `len` of them (reading past end-of-file just yields fewer bytes).
An `os.File` never returns data together with `io.EOF` from a single
`Read`, so the limited reader delivers exactly these bytes to the hasher.
-/
def readChunk (file : List Nat) (start len : Nat) : List Nat :=
  (file.drop start).take len

/--
`Plot.validateChunk` (`src/plot/plot.go` lines 193-242).
* guard: `int(number) >= len(p.fileChunkHashes)` returns an error before any
  file access;
* `stop := (number+1)*hashChunkSize`, `start := stop - hashChunkSize`
  (the clamp of `stop` to `downloadSize` only feeds a log line);
* `handle.Seek(start, io.SeekStart)` fails exactly when `start < 0`,
  modelled by the second guard;
* the chunk hash is compared with `p.fileChunkHashes[number]`; on mismatch
  `p.truncateFrom` is set to `start`.
Errors carry no payload (`Except Unit`).
-/
def validateChunk (hashFn : List Nat → String) (p : Plot) (number : Int) :
    Except Unit (Bool × Plot) :=
  if hlen : (p.fileChunkHashes.length : Int) ≤ number then
    .error ()
  else
    if hneg : (number + 1) * (hashChunkSize : Int) - (hashChunkSize : Int) < 0 then
      .error ()
    else
      let start : Int := (number + 1) * (hashChunkSize : Int) - (hashChunkSize : Int)
      let chunkHash := hashFn (readChunk p.file start.toNat hashChunkSize)
      let expected := p.fileChunkHashes.get ⟨number.toNat, by
        simp only [hashChunkSize] at hneg
        omega⟩
      if chunkHash = expected then .ok (true, p)
      else .ok (false, { p with truncateFrom := some start })

/--
`Plot.PrepareDownload` (`src/plot/plot.go` lines 413-478).  The returned
`Bool` is true when the function returns a non-nil error, in which case the
deferred handler has moved `downloadState` to `failed`.  Division of the
non-negative `int64` file size is `Nat` division.
-/
def prepareDownload (hashFn : List Nat → String) (p : Plot) : Plot × Bool :=
  let p := { p with downloadState := .preparing, downloadError := false }
  let downloaded := p.file.length
  if downloaded = p.downloadSize then
    ({ p with downloadState := .downloaded }, false)
  else if downloaded = 0 then
    ({ p with downloadState := .ready }, false)
  else if downloaded < hashChunkSize then
    ({ p with downloadState := .ready }, false)
  else
    let chunkNumber : Int := (downloaded / hashChunkSize : Nat) - 1
    let p := { p with downloadState := .initialValidation }
    match validateChunk hashFn p chunkNumber with
    | .error _ => ({ p with downloadState := .failed }, true)
    | .ok (valid, p') =>
      if valid then ({ p' with downloadState := .ready }, false)
      else ({ p' with downloadState := .failedValidation }, false)

/-- Result of one pass of the live validator's ticker body. -/
inductive ValidatorOutcome where
  /-- the `if` condition was false: nothing validated, `prevChunkN` kept. -/
  | idle (prevChunkN : Nat)
  /-- validation succeeded: previous state restored, `prevChunkN` advanced. -/
  | resumed (prevChunkN : Nat) (p : Plot)
  /-- validation failed or errored: state `failedValidation`, goroutine returns. -/
  | terminated (p : Plot)
deriving DecidableEq, Repr

/--
One iteration of the ticker loop inside `Plot.startValidator`
(`src/plot/plot.go` lines 273-315).  `prevChunkN` is the loop variable
(initially `fileSize / hashChunkSize`); `downloaded` samples the current
file size.  When `currChunkN` differs from `prevChunkN` or the file is
complete, the chunk to check is `prevChunkN`, or `currChunkN` for the
final chunk (`downloaded == p.downloadSize`).
-/
def validatorTick (hashFn : List Nat → String) (p : Plot) (prevChunkN : Nat) :
    ValidatorOutcome :=
  let downloaded := p.file.length
  let currChunkN := downloaded / hashChunkSize
  if currChunkN ≠ prevChunkN ∨ downloaded = p.downloadSize then
    let prevState := p.downloadState
    let q := { p with downloadState := DownloadState.liveValidation }
    let chunk : Nat := if downloaded = p.downloadSize then currChunkN else prevChunkN
    match validateChunk hashFn q (chunk : Int) with
    | .error _ => .terminated { q with downloadState := .failedValidation }
    | .ok (valid, q') =>
      if valid then .resumed currChunkN { q' with downloadState := prevState }
      else .terminated { q' with downloadState := .failedValidation }
  else .idle prevChunkN

/--
`os.File.Truncate(n)`: fails for a negative size; shrinks the file to `n`
bytes, or pads it with zero bytes when `n` exceeds the current size.
-/
def goTruncate (file : List Nat) (n : Int) : Option (List Nat) :=
  if n < 0 then none
  else if n.toNat ≤ file.length then some (file.take n.toNat)
  else some (file ++ List.replicate (n.toNat - file.length) 0)

/--
The `p.truncateFrom` block at the top of `Plot.Download`
(`src/plot/plot.go` lines 526-538): truncate the file to the recorded
offset, seek to the new end (positions are not modelled; the writer always
appends), and clear the field.  `none` when `Truncate` fails.
-/
def truncPhase (p : Plot) : Option Plot :=
  match p.truncateFrom with
  | none => some p
  | some t => (goTruncate p.file t).map fun f =>
      { p with file := f, truncateFrom := none }

/-- The HTTP exchange observed by one `Plot.Download` invocation. -/
inductive HttpResp where
  /-- `http.DefaultClient.Do` itself returned an error. -/
  | transportErr
  /-- a response: its status code, the bytes successfully read from the
  body (written through the buffered writer), and whether reading the body
  ended in a non-EOF error after those bytes. -/
  | resp (status : Nat) (body : List Nat) (readErr : Bool)
deriving DecidableEq, Repr

/-- Observable result of one `Plot.Download` invocation. -/
structure DownloadOutcome where
  plot : Plot
  /-- file content at the moment the GET request is issued. -/
  fileAtRequest : List Nat
  /-- the `Range` header of the request, when one is set. -/
  rangeHeader : Option String
  /-- status code the invocation will accept. -/
  expectedStatus : Nat
  /-- whether `Download` returned a non-nil error. -/
  errored : Bool
deriving DecidableEq, Repr

/--
`Plot.Download` (`src/plot/plot.go` lines 492-619), minus the spawned
validator/recorder.  Order of effects follows the source: truncate first
(failure → error → state `failed` via the deferred handler), then state
`downloading`, then `downloadedBytes := p.getDownloadedBytes()` decides
`Range`/expected status, then the response is checked and its body
appended.  The deferred handler maps: error → `failed`; all bytes present
→ `downloaded`; otherwise the state is left as is (aborted download).
-/
def download (p0 : Plot) (r : HttpResp) : DownloadOutcome :=
  match truncPhase p0 with
  | none => ⟨{ p0 with downloadState := .failed }, p0.file, none, 0, true⟩
  | some p1 =>
    let p := { p1 with downloadState := DownloadState.downloading }
    let downloadedBytes := p.file.length
    let expected := if downloadedBytes > 0 then 206 else 200
    let range : Option String :=
      if downloadedBytes > 0 then some ("bytes=" ++ toString downloadedBytes ++ "-")
      else none
    match r with
    | .transportErr => ⟨{ p with downloadState := .failed }, p.file, range, expected, true⟩
    | .resp status body readErr =>
      if status ≠ expected then
        ⟨{ p with downloadState := .failed }, p.file, range, expected, true⟩
      else
        let f := p.file ++ body
        if readErr then
          ⟨{ p with file := f, downloadState := .failed }, p.file, range, expected, true⟩
        else if f.length = p.downloadSize then
          ⟨{ p with file := f, downloadState := .downloaded }, p.file, range, expected, false⟩
        else
          ⟨{ p with file := f }, p.file, range, expected, false⟩

/--
One `Read` call of an `io.Reader`, as permitted by the Go read contract:
`ok data` is `(len(data), nil)`, `eof data` is `(len(data), io.EOF)`
(the contract explicitly allows data together with EOF), and
`fail data` is `(len(data), err)` for a non-EOF error.
-/
inductive ReadStep where
  | ok (data : List Nat)
  | eof (data : List Nat)
  | fail (data : List Nat)
deriving DecidableEq, Repr

/--
The bytes fed to the Blake2b hasher by the read loop of
`calculateChunkHash` (`src/plot/hash.go` lines 15-36).  The loop checks
`err == io.EOF` (break) and `err != nil` (fail) *before* the
`if r > 0 then h.Write(buffer[:r])`, so the data of the `eof`/`fail` step
is never written.  An exhausted trace ends the hash like EOF does.
The digest of the loop is `hashFn` applied to this byte list.
-/
def calculateChunkHashBytes : List ReadStep → Except Unit (List Nat)
  | [] => .ok []
  | step :: rest =>
    match step with
    | .eof _ => .ok []
    | .fail _ => .error ()
    | .ok data => (calculateChunkHashBytes rest).map fun bs => data ++ bs

/-- `calculateChunkHash` itself: the hex digest of the bytes the loop wrote. -/
def calculateChunkHash (hashFn : List Nat → String) (steps : List ReadStep) :
    Except Unit String :=
  (calculateChunkHashBytes steps).map hashFn

/--
The bytes actually readable from the stream: every byte a `Read` call
hands back up to and including the read that reports EOF (or up to a
failing read).
-/
def readableBytes : List ReadStep → List Nat
  | [] => []
  | .ok data :: rest => data ++ readableBytes rest
  | .eof data :: _ => data
  | .fail data :: _ => data

/-- Remote plot states (`src/plot/plot.go` lines 23-30). -/
inductive PState where
  | pending
  | plotting
  | published
  | cancelled
  | expired
deriving DecidableEq, Repr

/-- A plot as seen by the order processor's control loop: its id and the
remote state it shows on the current tick (already refreshed). -/
structure OrderPlot where
  id : String
  state : PState
deriving DecidableEq, Repr

/--
The schedule/counter skeleton of `Processor.process`
(`src/unnamed/part_008` lines 116-268, identically `src/unnamed/part_007`
lines 114-260): walk the plots in order; a plot whose id is no longer in
the schedule is skipped (`continue`); a `Cancelled`/`Expired` plot bumps
`expiredOrCancelled` and is deleted from the schedule; every other branch
leaves schedule membership intact (it can only rewrite the plot's next
check time).  The returned `Bool` is `len(proc.plots) == expiredOrCancelled`,
which `Start` treats as "finished".
-/
def processTick (plots : List OrderPlot) (schedule : List String) :
    Bool × List String :=
  let step := fun (acc : Nat × List String) (p : OrderPlot) =>
    if p.id ∈ acc.2 then
      match p.state with
      | .cancelled | .expired => (acc.1 + 1, acc.2.erase p.id)
      | _ => acc
    else acc
  let r := plots.foldl step (0, schedule)
  (plots.length = r.1, r.2)

/-- `minAvailableSpaceThreshold` (`src/unnamed/part_008` line 23): 1 GB. -/
def minAvailableSpaceThreshold : Nat := 1000000000

/--
The free-space sweep at the top of each ticker iteration of
`Processor.Start` (`src/unnamed/part_008` lines 309-325).  `probe d` is
`disk.GetAvailableSpace(d)` (`none` = error, which only logs a warning and
continues).  Returns `(cancelled, probedDirs, lowSpaceWarnedDirs)`:
a zero-byte probe calls `cancel()` and returns at once (remaining
directories are not probed and `process` does not run this tick);
a probe at or below the 1 GB threshold only appends a warning.
-/
def diskCheck (probe : String → Option Nat) :
    List String → Bool × List String × List String
  | [] => (false, [], [])
  | d :: rest =>
    match probe d with
    | none =>
      let r := diskCheck probe rest
      (r.1, d :: r.2.1, r.2.2)
    | some avail =>
      if avail = 0 then (true, [d], [])
      else
        let r := diskCheck probe rest
        (r.1, d :: r.2.1,
          if avail ≤ minAvailableSpaceThreshold then d :: r.2.2 else r.2.2)

/-- Result of `Processor.getPlotDownloadDirectory`. -/
inductive AllocResult where
  /-- a directory was chosen. -/
  | ok (dir : String)
  /-- `ErrNotEnoughSpace`. -/
  | notEnoughSpace
  /-- an error from `disk.GetAvailableSpace` was returned as-is. -/
  | probeError
deriving DecidableEq, Repr

/-- Two-complement range constants for the Go fixed-width arithmetic in the
allocator. -/
def u64Mod : Nat := 18446744073709551616

/-- `uint64(i)` for an `int64` value `i`: reduction modulo `2^64`. -/
def u64OfInt (i : Int) : Nat := (i % (u64Mod : Int)).toNat

/-- Wrapping `uint64` subtraction `a - c`. -/
def u64Sub (a c : Nat) : Nat := (a % u64Mod + u64Mod - c % u64Mod) % u64Mod

/-- `int64(u)` for a `uint64` value `u`. -/
def toInt64 (u : Nat) : Int :=
  if u % u64Mod < 9223372036854775808 then (u % u64Mod : Int)
  else (u % u64Mod : Int) - (u64Mod : Int)

/-- Go map read `claimedBytesByDrive[drive]` (missing key reads as 0). -/
def lookupClaimed (claimed : List (String × Int)) (drive : String) : Int :=
  match claimed.find? (fun e => e.1 = drive) with
  | some e => e.2
  | none => 0

/-- Go map write `claimedBytesByDrive[drive] += delta`. -/
def bumpClaimed (claimed : List (String × Int)) (drive : String) (delta : Int) :
    List (String × Int) :=
  (drive, lookupClaimed claimed drive + delta) ::
    claimed.filter (fun e => ¬ e.1 = drive)

/--
First loop of `Processor.getPlotDownloadDirectory`
(`src/unnamed/part_007` lines 63-88): find the first directory whose
`path.Join(plotDir, filename)` stats successfully (`statSize`, `none` when
the file does not exist); there compute
`available -= uint64(claimedBytesByDrive[drive])` in wrapping `uint64`
arithmetic and compare `remaining > int64(available)`: too little space is
an immediate `ErrNotEnoughSpace`, otherwise this directory is claimed and
chosen.  `none` means no directory holds a partial file.
-/
def resumePass (statSize : String → Option Int)
    (probe : String → Option (Nat × String)) (plotSize : Int)
    (claimed : List (String × Int)) :
    List String → Option (AllocResult × List (String × Int))
  | [] => none
  | d :: rest =>
    match statSize d with
    | none => resumePass statSize probe plotSize claimed rest
    | some sz =>
      match probe d with
      | none => some (.probeError, claimed)
      | some (avail, drive) =>
        let available := u64Sub avail (u64OfInt (lookupClaimed claimed drive))
        let remaining : Int := plotSize - sz
        if remaining > toInt64 available then some (.notEnoughSpace, claimed)
        else some (.ok d, bumpClaimed claimed drive remaining)

/--
Second loop of `Processor.getPlotDownloadDirectory`
(`src/unnamed/part_007` lines 91-108): first directory whose wrapped
available space is not exceeded by `uint64(plotSize)`; the comparison
stays in `uint64`.
-/
def freshPass (probe : String → Option (Nat × String)) (plotSize : Int)
    (claimed : List (String × Int)) :
    List String → AllocResult × List (String × Int)
  | [] => (.notEnoughSpace, claimed)
  | d :: rest =>
    match probe d with
    | none => (.probeError, claimed)
    | some (avail, drive) =>
      let available := u64Sub avail (u64OfInt (lookupClaimed claimed drive))
      if u64OfInt plotSize > available then freshPass probe plotSize claimed rest
      else (.ok d, bumpClaimed claimed drive plotSize)

/--
`Processor.getPlotDownloadDirectory` (`src/unnamed/part_007` lines
49-112): the resume pass decides if any directory holds a partial file,
otherwise the fresh-placement pass runs; with no fitting directory the
result is `ErrNotEnoughSpace`.
-/
def getPlotDownloadDirectory (statSize : String → Option Int)
    (probe : String → Option (Nat × String)) (plotSize : Int)
    (claimed : List (String × Int)) (plotDirs : List String) :
    AllocResult × List (String × Int) :=
  match resumePass statSize probe plotSize claimed plotDirs with
  | some r => r
  | none => freshPass probe plotSize claimed plotDirs

/--
Modelled from the claim's words (spec §4.5 directory allocation), for
comparison with `resumePass`: scan for the first directory already holding
the plot's partial file; its available space is the disk probe result
minus the bytes accounted to other plots on the same volume, as exact
integers; it must cover the remaining bytes, else `ErrNotEnoughSpace`
without trying other directories.
-/
def specResumePass (statSize : String → Option Int)
    (probe : String → Option (Nat × String)) (plotSize : Int)
    (claimed : List (String × Int)) : List String → Option AllocResult
  | [] => none
  | d :: rest =>
    match statSize d with
    | none => specResumePass statSize probe plotSize claimed rest
    | some sz =>
      match probe d with
      | none => some .probeError
      | some (avail, drive) =>
        if plotSize - sz ≤ (avail : Int) - lookupClaimed claimed drive
        then some (.ok d) else some .notEnoughSpace

/--
Modelled from the claim's words (spec §4.5 fresh placement): the first
directory in configured order whose exact available space covers the full
plot size, otherwise `ErrNotEnoughSpace`.
-/
def specFreshPass (probe : String → Option (Nat × String)) (plotSize : Int)
    (claimed : List (String × Int)) : List String → AllocResult
  | [] => .notEnoughSpace
  | d :: rest =>
    match probe d with
    | none => .probeError
    | some (avail, drive) =>
      if plotSize ≤ (avail : Int) - lookupClaimed claimed drive
      then .ok d else specFreshPass probe plotSize claimed rest

/-- The allocation rule exactly as the claim states it. -/
def specAllocation (statSize : String → Option Int)
    (probe : String → Option (Nat × String)) (plotSize : Int)
    (claimed : List (String × Int)) (plotDirs : List String) : AllocResult :=
  match specResumePass statSize probe plotSize claimed plotDirs with
  | some r => r
  | none => specFreshPass probe plotSize claimed plotDirs

/-- The body bytes of one hashes-endpoint response, at the granularity
`GetHashesForPlot` inspects them: empty, a JSON array of strings, or
anything that does not unmarshal into `[]string`. -/
inductive RawBody where
  | empty
  | arr (l : List String)
  | other
deriving DecidableEq, Repr

/-- One attempt of the backoff loop inside `Client.apiRequest`. -/
inductive Attempt where
  | transportErr
  | resp (status : Nat) (body : RawBody)
deriving DecidableEq, Repr

/-- The retry predicate passed by `Client.GetHashesForPlot`
(`src/unnamed/part_013` lines 83-90): do not retry on 400 or 200. -/
def hashesRetry (code : Nat) : Bool :=
  if code = 400 ∨ code = 200 then false else true

/--
The backoff loop of `Client.apiRequest` (`src/unnamed/part_013` lines
170-211) over the finite sequence of attempts the 1-minute backoff window
permits.  A response whose status the predicate accepts is returned at
once.  When the ticker ends the loop, the function returns the *last*
attempt's outcome: its transport error, or — for a retryable response that
ran out of attempts — that response's body with a nil error.
-/
def apiRequest (retryFunc : Nat → Bool) : List Attempt → Except Unit RawBody
  | [] => .ok .empty
  | [a] =>
    match a with
    | .transportErr => .error ()
    | .resp _ body => .ok body
  | a :: rest =>
    match a with
    | .transportErr => apiRequest retryFunc rest
    | .resp status body =>
      if retryFunc status then apiRequest retryFunc rest else .ok body

/-- Outcome of `Client.GetHashesForPlot`. -/
inductive HashesResult where
  /-- `ErrPlotHashesNotReady`. -/
  | notReady
  | hashes (l : List String)
  /-- the transport error surfaced by `apiRequest`. -/
  | apiError
  /-- `json.Unmarshal` failed on the body. -/
  | parseError
deriving DecidableEq, Repr

/--
`Client.GetHashesForPlot` (`src/unnamed/part_013` lines 82-110): an empty
body (`len(response) <= 0`) is `ErrPlotHashesNotReady` before unmarshal;
a decoded list shorter than 1 is `ErrPlotHashesNotReady` too; a body that
is not a JSON string array is an unmarshal error.
-/
def getHashesForPlot (attempts : List Attempt) : HashesResult :=
  match apiRequest hashesRetry attempts with
  | .error _ => .apiError
  | .ok .empty => .notReady
  | .ok .other => .parseError
  | .ok (.arr l) => if l.length < 1 then .notReady else .hashes l

/-! ## Helper lemmas -/

/-- A chunk index at or beyond the hash list makes `validateChunk` fail
up front, whatever the rest of the plot looks like. -/
theorem validateChunk_of_le (hashFn : List Nat → String) (p : Plot) (n : Int)
    (hlen : (p.fileChunkHashes.length : Int) ≤ n) :
    validateChunk hashFn p n = .error () := by
  unfold validateChunk
  rw [dif_pos hlen]

/-- On an in-range index `validateChunk` reduces to the hash comparison of
the chunk starting at `k * hashChunkSize`. -/
theorem validateChunk_of_lt (hashFn : List Nat → String) (p : Plot) (k : Nat)
    (hk : k < p.fileChunkHashes.length) :
    validateChunk hashFn p (k : Int) =
      if hashFn (readChunk p.file (k * hashChunkSize) hashChunkSize) =
          p.fileChunkHashes.get ⟨k, hk⟩
      then .ok (true, p)
      else .ok (false, { p with truncateFrom := some ((k * hashChunkSize : Nat) : Int) }) := by
  unfold validateChunk
  rw [dif_neg (by exact_mod_cast Nat.not_le.mpr hk)]
  rw [dif_neg (by simp only [hashChunkSize]; push_cast; omega)]
  have hstart : (((k : Int) + 1) * (hashChunkSize : Int) - (hashChunkSize : Int)).toNat
      = k * hashChunkSize := by
    simp only [hashChunkSize]
    push_cast
    omega
  have hidx : ((k : Int)).toNat = k := Int.toNat_natCast k
  simp only [hstart, hidx]
  congr 1
  push_cast
  ring_nf

/-- When the last full chunk's index falls outside the hash list,
`PrepareDownload` returns an error and the deferred handler leaves the
plot `failed`. -/
theorem prepareDownload_error_of_missing_hash (hashFn : List Nat → String)
    (hashes : List String) (ds : DownloadState) (size : Nat) (file : List Nat)
    (tf : Option Int) (de : Bool)
    (h1 : file.length ≠ size) (h2 : hashChunkSize ≤ file.length)
    (h3 : hashes.length ≤ file.length / hashChunkSize - 1) :
    (prepareDownload hashFn ⟨hashes, ds, size, file, tf, de⟩).1.downloadState = .failed ∧
      (prepareDownload hashFn ⟨hashes, ds, size, file, tf, de⟩).2 = true := by
  have hC : 0 < hashChunkSize := by norm_num [hashChunkSize]
  have hpos : file.length ≠ 0 := by omega
  have hdiv1 : 1 ≤ file.length / hashChunkSize := (Nat.one_le_div_iff hC).mpr h2
  have hcast : (↑(file.length / hashChunkSize) : Int) - 1 =
      ((file.length / hashChunkSize - 1 : Nat) : Int) := by omega
  simp only [prepareDownload, if_neg h1, if_neg hpos, if_neg (Nat.not_lt.mpr h2)]
  rw [hcast, validateChunk_of_le _ _ _ (by exact_mod_cast h3)]
  simp

/-- When the observed size triggers validation and the chosen chunk index
falls outside the hash list, the validator terminates with
`failedValidation`. -/
theorem validatorTick_error_of_missing_hash (hashFn : List Nat → String)
    (hashes : List String) (ds : DownloadState) (size : Nat) (file : List Nat)
    (tf : Option Int) (de : Bool) (prevChunkN : Nat)
    (hcond : file.length / hashChunkSize ≠ prevChunkN ∨ file.length = size)
    (hidx : hashes.length ≤
      (if file.length = size then file.length / hashChunkSize else prevChunkN)) :
    validatorTick hashFn ⟨hashes, ds, size, file, tf, de⟩ prevChunkN =
      .terminated ⟨hashes, .failedValidation, size, file, tf, de⟩ := by
  simp only [validatorTick, if_pos hcond]
  rw [validateChunk_of_le _ _ _ (by exact_mod_cast hidx)]

/-! ## C10 -/

/--
C10: calling `validateChunk` with an index at or beyond the number of
entries of `fileChunkHashes` returns an error without reading the file
(the result does not depend on the file content) and without producing any
plot (so `truncateFrom` is untouched); for an index below the hash-list
length (and non-negative, as every caller's index is) the call returns a
result, the indexing into `fileChunkHashes` happening through a
bounds-proof-carrying `List.get`.
-/
theorem validateChunk_index_safety (hashFn : List Nat → String) (p : Plot) (n : Int) :
    ((p.fileChunkHashes.length : Int) ≤ n →
      validateChunk hashFn p n = .error () ∧
      (∀ file', validateChunk hashFn { p with file := file' } n = .error ()) ∧
      ∀ b q, validateChunk hashFn p n ≠ .ok (b, q)) ∧
    (0 ≤ n → n < (p.fileChunkHashes.length : Int) →
      ∃ b q, validateChunk hashFn p n = .ok (b, q)) := by
  constructor
  · intro hlen
    refine ⟨validateChunk_of_le hashFn p n hlen, fun file' => ?_, fun b q => ?_⟩
    · exact validateChunk_of_le hashFn _ n hlen
    · rw [validateChunk_of_le hashFn p n hlen]
      exact fun h => by cases h
  · intro hn hlt
    obtain ⟨k, rfl⟩ := Int.eq_ofNat_of_zero_le hn
    have hk : k < p.fileChunkHashes.length := by exact_mod_cast hlt
    rw [validateChunk_of_lt hashFn p k hk]
    split
    · exact ⟨true, p, rfl⟩
    · exact ⟨false, _, rfl⟩

/-- Witness for C10 at a concrete plot: index 5 is rejected, index 1 is
served, on a two-hash plot. -/
theorem validateChunk_index_safety_witness :
    (validateChunk (fun _ => "x")
        ⟨["a", "b"], .notStarted, 7, [1, 2, 3], none, false⟩ 5 = .error () ∧
      ∃ b q, validateChunk (fun _ => "x")
        ⟨["a", "b"], .notStarted, 7, [1, 2, 3], none, false⟩ 1 = .ok (b, q)) := by
  refine ⟨?_, ?_⟩
  · exact (validateChunk_index_safety (fun _ => "x")
      ⟨["a", "b"], .notStarted, 7, [1, 2, 3], none, false⟩ 5).1 (by norm_num) |>.1
  · exact (validateChunk_index_safety (fun _ => "x")
      ⟨["a", "b"], .notStarted, 7, [1, 2, 3], none, false⟩ 1).2 (by norm_num) (by norm_num)

/-! ## C1 -/

/--
C1 (amended): for a plot with an open file of size `d` and a non-empty
hash list, and *provided the hash list reaches past chunk `(d/C)-1`
whenever `d ≥ C`*, `PrepareDownload` sets the download state to
`downloaded` if `d = downloadSize`; to `ready` if `d < C` (which covers
`d = 0`); otherwise it hashes chunk `k = d/C - 1` and sets `ready` on a
match with `fileChunkHashes[k]` (leaving `truncateFrom` alone) and
`failedValidation` with `truncateFrom = k·C` on a mismatch.
-/
theorem prepareDownload_state_machine (hashFn : List Nat → String) (p : Plot)
    (hne : p.fileChunkHashes ≠ [])
    (hk : hashChunkSize ≤ p.file.length →
      p.file.length / hashChunkSize - 1 < p.fileChunkHashes.length) :
    (p.file.length = p.downloadSize →
      (prepareDownload hashFn p).1.downloadState = .downloaded) ∧
    (p.file.length ≠ p.downloadSize → p.file.length < hashChunkSize →
      (prepareDownload hashFn p).1.downloadState = .ready) ∧
    (p.file.length ≠ p.downloadSize → hashChunkSize ≤ p.file.length →
      (hashFn (readChunk p.file
            ((p.file.length / hashChunkSize - 1) * hashChunkSize) hashChunkSize) =
          p.fileChunkHashes.getD (p.file.length / hashChunkSize - 1) "" →
        (prepareDownload hashFn p).1.downloadState = .ready ∧
        (prepareDownload hashFn p).1.truncateFrom = p.truncateFrom) ∧
      (hashFn (readChunk p.file
            ((p.file.length / hashChunkSize - 1) * hashChunkSize) hashChunkSize) ≠
          p.fileChunkHashes.getD (p.file.length / hashChunkSize - 1) "" →
        (prepareDownload hashFn p).1.downloadState = .failedValidation ∧
        (prepareDownload hashFn p).1.truncateFrom =
          some (((p.file.length / hashChunkSize - 1) * hashChunkSize : Nat) : Int))) := by
  obtain ⟨hashes, ds, size, file, tf, de⟩ := p
  simp only at hne hk ⊢
  have hC : 0 < hashChunkSize := by norm_num [hashChunkSize]
  refine ⟨fun h => ?_, fun h1 h2 => ?_, fun h1 h2 => ?_⟩
  · simp [prepareDownload, h]
  · by_cases h0 : file.length = 0
    · have h1' : ¬ ((0 : Nat) = size) := h0 ▸ h1
      simp [prepareDownload, h0, h1, h1', h2]
    · simp [prepareDownload, h1, h2, h0]
  · have hpos : file.length ≠ 0 := by omega
    have hdiv1 : 1 ≤ file.length / hashChunkSize := (Nat.one_le_div_iff hC).mpr h2
    have hk' : file.length / hashChunkSize - 1 < hashes.length := hk h2
    have hcast : (↑(file.length / hashChunkSize) : Int) - 1 =
        ((file.length / hashChunkSize - 1 : Nat) : Int) := by omega
    have hgetD : hashes.getD (file.length / hashChunkSize - 1) "" =
        hashes.get ⟨file.length / hashChunkSize - 1, hk'⟩ := by
      rw [List.getD_eq_getElem _ _ hk']
      simp [List.get_eq_getElem]
    simp only [prepareDownload, if_neg h1, if_neg hpos, if_neg (Nat.not_lt.mpr h2)]
    rw [hcast,
      validateChunk_of_lt hashFn ⟨hashes, .initialValidation, size, file, tf, false⟩
        (file.length / hashChunkSize - 1) hk']
    constructor
    · intro hmatch
      rw [hgetD] at hmatch
      rw [if_pos hmatch]
      simp
    · intro hmiss
      rw [hgetD] at hmiss
      rw [if_neg hmiss]
      simp

/-- Witness for C1 at an empty file: `d = 0 ≠ downloadSize`, state `ready`. -/
theorem prepareDownload_state_machine_witness :
    (prepareDownload (fun _ => "x")
        ⟨["a"], .notStarted, 5, [], none, true⟩).1.downloadState = .ready := by
  have h := prepareDownload_state_machine (fun _ => "x")
    ⟨["a"], .notStarted, 5, [], none, true⟩ (by simp)
    (by intro h; simp [hashChunkSize] at h)
  exact h.2.1 (by simp) (by norm_num [hashChunkSize])

/--
Counterexample to C1 as frozen: a plot with a *non-empty* hash list
(one entry) and a 20 GB file (two full chunks) out of a 30 GB download.
`PrepareDownload` must hash chunk `k = 1`, but `fileChunkHashes[1]` does
not exist: `validateChunk` errors out and the deferred handler moves the
state to `failed` — none of the states the claim allows (`downloaded`,
`ready`, `failedValidation`).
-/
theorem prepareDownload_claim_gap :
    (["h"] : List String) ≠ [] ∧
    (List.replicate 20000000000 (0 : Nat)).length ≠ 30000000000 ∧
    hashChunkSize ≤ (List.replicate 20000000000 (0 : Nat)).length ∧
    (prepareDownload (fun _ => "x")
        ⟨["h"], .notStarted, 30000000000,
          List.replicate 20000000000 0, none, false⟩).1.downloadState = .failed ∧
    (prepareDownload (fun _ => "x")
        ⟨["h"], .notStarted, 30000000000,
          List.replicate 20000000000 0, none, false⟩).1.downloadState ≠ .ready ∧
    (prepareDownload (fun _ => "x")
        ⟨["h"], .notStarted, 30000000000,
          List.replicate 20000000000 0, none, false⟩).1.downloadState ≠ .failedValidation := by
  have hlen : (List.replicate 20000000000 (0 : Nat)).length = 20000000000 :=
    List.length_replicate _ _
  have hred : (prepareDownload (fun _ => "x")
      ⟨["h"], .notStarted, 30000000000,
        List.replicate 20000000000 0, none, false⟩).1.downloadState = .failed := by
    refine (prepareDownload_error_of_missing_hash (fun _ => "x")
      ["h"] .notStarted 30000000000 (List.replicate 20000000000 0) none false
      ?_ ?_ ?_).1
    · rw [hlen]
      norm_num
    · rw [hlen]
      norm_num [hashChunkSize]
    · rw [hlen]
      norm_num [hashChunkSize]
  refine ⟨by simp, by rw [hlen]; norm_num, by rw [hlen]; norm_num [hashChunkSize],
    hred, by rw [hred]; simp, by rw [hred]; simp⟩

/-! ## C2 -/

/--
C2 fails on the code for download sizes that are exact multiples of the
chunk size: here a fully downloaded 2-chunk plot whose two chunks both
match their hashes (the hash function is constantly `"h"` and both listed
hashes are `"h"`).  On the tick observing `fileSize = downloadSize` the
validator picks `chunk = currChunkN = 2`, one past the hash list, so
`validateChunk` errors and the validator terminates with
`failedValidation` — instead of validating the final chunk (index 1) and
carrying on, as the claim states for every `downloadSize` including exact
multiples of `C`.
-/
theorem validatorTick_rejects_complete_file :
    validatorTick (fun _ => "h")
        ⟨["h", "h"], .downloading, 20000000000,
          List.replicate 20000000000 0, none, false⟩ 1 =
      .terminated ⟨["h", "h"], .failedValidation, 20000000000,
        List.replicate 20000000000 0, none, false⟩ ∧
    (∀ i : Nat, i < 2 →
      (fun _ => "h") (readChunk (List.replicate 20000000000 (0 : Nat))
          (i * hashChunkSize) hashChunkSize) =
        (["h", "h"] : List String).getD i "") := by
  constructor
  · have hlen : (List.replicate 20000000000 (0 : Nat)).length = 20000000000 :=
      List.length_replicate _ _
    refine validatorTick_error_of_missing_hash (fun _ => "h")
      ["h", "h"] .downloading 20000000000 (List.replicate 20000000000 0) none false 1
      (Or.inr ?_) ?_
    · exact hlen
    · rw [hlen]
      norm_num [hashChunkSize]
  · intro i hi
    interval_cases i <;> rfl

/-! ## C3 -/

/-- `truncPhase` on a set `truncateFrom` within the file: shrink and clear. -/
theorem truncPhase_of_some (p : Plot) (t : Int) (ht : p.truncateFrom = some t)
    (ht0 : 0 ≤ t) (htle : t.toNat ≤ p.file.length) :
    truncPhase p = some { p with file := p.file.take t.toNat, truncateFrom := none } := by
  simp only [truncPhase, ht, goTruncate, if_neg (not_lt.mpr ht0), if_pos htle]
  rfl

/--
C3: when `truncateFrom` is set (to `t`, a prefix of the current file, as a
failed chunk validation always sets it), `Download` truncates the file to
`t` bytes and clears `truncateFrom` before issuing the request: whatever
the HTTP exchange then does, the file submitted to the request phase is
`p.file.take t` (no byte past offset `t` survives), the resulting plot has
`truncateFrom = none`, and for `t > 0` the request asks the server to
resume exactly at byte `t`, so the invalidated chunk is downloaded again.
-/
theorem download_truncates_and_clears (p : Plot) (r : HttpResp) (t : Int)
    (ht : p.truncateFrom = some t) (ht0 : 0 ≤ t)
    (htle : t.toNat ≤ p.file.length) :
    (download p r).plot.truncateFrom = none ∧
    (download p r).fileAtRequest = p.file.take t.toNat ∧
    (download p r).fileAtRequest.length = t.toNat ∧
    (0 < t.toNat →
      (download p r).rangeHeader = some ("bytes=" ++ toString t.toNat ++ "-")) := by
  have hlen : (p.file.take t.toNat).length = t.toNat := by
    rw [List.length_take]
    omega
  simp only [download, truncPhase_of_some p t ht ht0 htle]
  cases r with
  | transportErr => simp [hlen]
  | resp status body readErr =>
    simp only [apply_ite DownloadOutcome.plot, apply_ite DownloadOutcome.fileAtRequest,
      apply_ite DownloadOutcome.rangeHeader, apply_ite Plot.truncateFrom, ite_self]
    simp [hlen]

/-- Witness for C3: a pending `truncateFrom = 2` on a 3-byte file is
applied and cleared, and the request resumes at byte 2. -/
theorem download_truncates_and_clears_witness :
    (download ⟨[], .failedValidation, 5, [7, 8, 9], some 2, false⟩
        (.resp 206 [1] false)).plot.truncateFrom = none ∧
    (download ⟨[], .failedValidation, 5, [7, 8, 9], some 2, false⟩
        (.resp 206 [1] false)).fileAtRequest = [7, 8] ∧
    (download ⟨[], .failedValidation, 5, [7, 8, 9], some 2, false⟩
        (.resp 206 [1] false)).rangeHeader = some "bytes=2-" := by
  have h := download_truncates_and_clears
    ⟨[], .failedValidation, 5, [7, 8, 9], some 2, false⟩ (.resp 206 [1] false) 2
    rfl (by norm_num) (by norm_num)
  refine ⟨h.1, ?_, ?_⟩
  · rw [h.2.1]
    rfl
  · rw [h.2.2.2 (by norm_num)]
    rfl

/-! ## C6 -/

/--
C6: with no pending truncation, `Download` on a file of current size `d`
sends `Range: bytes=d-` and accepts exactly status 206 when `d > 0`, sends
no `Range` header and accepts exactly status 200 when `d = 0`; a response
with any other status code makes `Download` return an error and leaves
the download state `failed`, while an accepted status with a clean body
read returns no error.
-/
theorem download_range_and_status (p : Plot) (r : HttpResp)
    (hnt : p.truncateFrom = none) :
    ((download p r).expectedStatus = if 0 < p.file.length then 206 else 200) ∧
    ((download p r).rangeHeader =
      if 0 < p.file.length then some ("bytes=" ++ toString p.file.length ++ "-")
      else none) ∧
    (∀ status body readErr, r = .resp status body readErr →
      status ≠ (if 0 < p.file.length then 206 else 200) →
      (download p r).errored = true ∧
      (download p r).plot.downloadState = .failed) ∧
    (∀ status body, r = .resp status body false →
      status = (if 0 < p.file.length then 206 else 200) →
      (download p r).errored = false) := by
  have htr : truncPhase p = some p := by simp [truncPhase, hnt]
  refine ⟨?_, ?_, fun status body readErr hr hs => ?_, fun status body hr hs => ?_⟩
  · simp only [download, htr]
    cases r with
    | transportErr => simp
    | resp status body readErr =>
      simp only [apply_ite DownloadOutcome.expectedStatus, ite_self]
  · simp only [download, htr]
    cases r with
    | transportErr => simp
    | resp status body readErr =>
      simp only [apply_ite DownloadOutcome.rangeHeader, ite_self]
  · subst hr
    simp only [download, htr]
    rw [if_pos (show status ≠ (if p.file.length > 0 then 206 else 200) from hs)]
    simp
  · subst hr
    simp only [download, htr]
    rw [if_neg (show ¬ status ≠ (if p.file.length > 0 then 206 else 200) from
      not_not_intro hs)]
    simp only [apply_ite DownloadOutcome.errored, ite_self]
    simp

/-- Witness for C6: a 2-byte partial file asks for `bytes=2-`, expects
206, and a 500 response errors out into `failed`. -/
theorem download_range_and_status_witness :
    (download ⟨[], .ready, 5, [7, 8], none, false⟩
        (.resp 500 [] false)).rangeHeader = some "bytes=2-" ∧
    (download ⟨[], .ready, 5, [7, 8], none, false⟩
        (.resp 500 [] false)).expectedStatus = 206 ∧
    (download ⟨[], .ready, 5, [7, 8], none, false⟩
        (.resp 500 [] false)).errored = true ∧
    (download ⟨[], .ready, 5, [7, 8], none, false⟩
        (.resp 500 [] false)).plot.downloadState = .failed := by
  have h := download_range_and_status ⟨[], .ready, 5, [7, 8], none, false⟩
    (.resp 500 [] false) rfl
  have herr := h.2.2.1 500 [] false rfl (by norm_num)
  refine ⟨?_, ?_, herr.1, herr.2⟩
  · rw [h.2.1]
    norm_num
    rfl
  · rw [h.1]
    norm_num

/-! ## C5 -/

/--
C5 fails on the code: a plot observed `Expired`/`Cancelled` is deleted
from the schedule, and on every later tick the `continue` for unscheduled
plots skips it *before* the `expiredOrCancelled` counter is bumped, so
`len(proc.plots) == expiredOrCancelled` can only hold when every plot of
the order is seen expiring within one and the same tick.  Here plot `p1`
is observed Expired on tick 1 (and drops off the schedule); on tick 2 both
plots are Expired — the whole order is done — yet the tick reports
"not finished" (count 1 of 2), and so does every later tick (count 0 of 2).
-/
theorem processTick_misses_staggered_expiry :
    processTick [⟨"p1", .expired⟩, ⟨"p2", .published⟩] ["p1", "p2"] =
      (false, ["p2"]) ∧
    processTick [⟨"p1", .expired⟩, ⟨"p2", .expired⟩] ["p2"] = (false, []) ∧
    processTick [⟨"p1", .expired⟩, ⟨"p2", .expired⟩] [] = (false, []) ∧
    (∀ p : OrderPlot,
      p ∈ [(⟨"p1", .expired⟩ : OrderPlot), ⟨"p2", .expired⟩] → p.state = .expired) := by
  refine ⟨by decide, by decide, by decide, ?_⟩
  intro p hp
  fin_cases hp <;> rfl

/-! ## C8 -/

/-- The sweep cancels exactly when some configured directory probes zero. -/
theorem diskCheck_cancel_iff (probe : String → Option Nat) (dirs : List String) :
    (diskCheck probe dirs).1 = true ↔ ∃ d ∈ dirs, probe d = some 0 := by
  induction dirs with
  | nil => simp [diskCheck]
  | cons d rest ih =>
    rcases hp : probe d with _ | n
    · simpa [diskCheck, hp] using ih
    · rcases Nat.eq_zero_or_pos n with rfl | hn
      · simp [diskCheck, hp]
      · have : ¬ n = 0 := by omega
        simp [diskCheck, hp, this, ih]

/-- Without a zero probe, every configured directory is probed. -/
theorem diskCheck_probes_all (probe : String → Option Nat) (dirs : List String)
    (h : (diskCheck probe dirs).1 = false) :
    (diskCheck probe dirs).2.1 = dirs := by
  induction dirs with
  | nil => simp [diskCheck]
  | cons d rest ih =>
    rcases hp : probe d with _ | n
    · simp only [diskCheck, hp] at h ⊢
      rw [ih h]
    · rcases Nat.eq_zero_or_pos n with rfl | hn
      · simp [diskCheck, hp] at h
      · have hne : ¬ n = 0 := by omega
        simp only [diskCheck, hp, if_neg hne] at h ⊢
        rw [ih h]

/-- Without a zero probe, every directory at or below the 1 GB floor is in
the warning list. -/
theorem diskCheck_warns (probe : String → Option Nat) (dirs : List String)
    (h : (diskCheck probe dirs).1 = false) :
    ∀ d ∈ dirs, ∀ n, probe d = some n → 0 < n →
      n ≤ minAvailableSpaceThreshold → d ∈ (diskCheck probe dirs).2.2 := by
  induction dirs with
  | nil => simp
  | cons d0 rest ih =>
    intro d hd n hpn hn hfloor
    rcases hp : probe d0 with _ | m
    · simp only [diskCheck, hp] at h ⊢
      rcases List.mem_cons.mp hd with rfl | hd'
      · rw [hp] at hpn
        cases hpn
      · exact ih h d hd' n hpn hn hfloor
    · rcases Nat.eq_zero_or_pos m with rfl | hm
      · simp [diskCheck, hp] at h
      · have hne : ¬ m = 0 := by omega
        simp only [diskCheck, hp, if_neg hne] at h ⊢
        rcases List.mem_cons.mp hd with rfl | hd'
        · rw [hp] at hpn
          cases hpn
          rw [if_pos hfloor]
          exact List.mem_cons_self _ _
        · rcases em (m ≤ minAvailableSpaceThreshold) with hm' | hm'
          · rw [if_pos hm']
            exact List.mem_cons_of_mem _ (ih h d hd' n hpn hn hfloor)
          · rw [if_neg hm']
            exact ih h d hd' n hpn hn hfloor

/--
C8: on a tick of the order processor's free-space sweep, the run is
cancelled (graceful shutdown) exactly when some configured directory
probes zero available bytes; when no directory probes zero, every
configured directory is probed, each directory whose free space is
positive but at or below the 1 GB floor only lands in the warning list,
and processing continues (`process` runs only on non-cancelled sweeps).
-/
theorem diskCheck_contract (probe : String → Option Nat) (dirs : List String) :
    ((diskCheck probe dirs).1 = true ↔ ∃ d ∈ dirs, probe d = some 0) ∧
    ((diskCheck probe dirs).1 = false →
      (diskCheck probe dirs).2.1 = dirs ∧
      ∀ d ∈ dirs, ∀ n, probe d = some n → 0 < n →
        n ≤ minAvailableSpaceThreshold → d ∈ (diskCheck probe dirs).2.2) :=
  ⟨diskCheck_cancel_iff probe dirs,
    fun h => ⟨diskCheck_probes_all probe dirs h, diskCheck_warns probe dirs h⟩⟩

/-- Witness for C8 on three directories: 2 GB free is fine, 0.5 GB warns,
nothing cancels. -/
theorem diskCheck_contract_witness :
    ((diskCheck
        (fun d => if d = "small" then some 500000000 else some 2000000000)
        ["big", "small"]).1 = false) ∧
    (diskCheck
        (fun d => if d = "small" then some 500000000 else some 2000000000)
        ["big", "small"]).2.1 = ["big", "small"] ∧
    "small" ∈ (diskCheck
        (fun d => if d = "small" then some 500000000 else some 2000000000)
        ["big", "small"]).2.2 := by
  have h := diskCheck_contract
    (fun d => if d = "small" then some 500000000 else some 2000000000)
    ["big", "small"]
  have hfalse : (diskCheck
      (fun d => if d = "small" then some 500000000 else some 2000000000)
      ["big", "small"]).1 = false := by decide
  have h2 := h.2 hfalse
  refine ⟨hfalse, h2.1, ?_⟩
  exact h2.2 "small" (by simp) 500000000 (by simp) (by norm_num)
    (by norm_num [minAvailableSpaceThreshold])

/-! ## C9 -/

/--
C9 fails on the code: the read loop of `calculateChunkHash` checks
`err == io.EOF` *before* writing the returned bytes, so a reader whose
final `Read` returns data together with `io.EOF` — a behaviour the Go
read contract explicitly permits — has those bytes silently dropped from
the digest.  On the trace `[Read → ([1,2], nil), Read → ([3], io.EOF)]`
the readable bytes are `[1,2,3]` but the function hashes only `[1,2]` and
reports success, so the returned digest is not the digest of the bytes
readable from the stream.
-/
theorem calculateChunkHash_drops_final_bytes :
    calculateChunkHashBytes [ReadStep.ok [1, 2], ReadStep.eof [3]] = .ok [1, 2] ∧
    readableBytes [ReadStep.ok [1, 2], ReadStep.eof [3]] = [1, 2, 3] ∧
    ([1, 2] : List Nat) ≠ [1, 2, 3] ∧
    (∀ hashFn : List Nat → String,
      calculateChunkHash hashFn [ReadStep.ok [1, 2], ReadStep.eof [3]] =
        .ok (hashFn [1, 2])) :=
  ⟨rfl, rfl, by decide, fun hashFn => rfl⟩

/-! ## C7 -/

/--
Counterexample to C7 as frozen: a single 400 response whose body is not a
JSON string array (the usual error-object body).  `apiRequest` hands the
body through without retrying, and `json.Unmarshal` then fails, so
`GetHashesForPlot` surfaces a parse error — not the `HashesNotReady`
outcome the claim promises for every 400 response.
-/
theorem getHashesForPlot_400_not_always_notReady :
    getHashesForPlot [.resp 400 .other] = .parseError ∧
    HashesResult.parseError ≠ .notReady := by
  exact ⟨rfl, by decide⟩

/--
C7 (amended): a 400 response whose body is empty or decodes to an empty
array yields `HashesNotReady` rather than a failure (a 400 body that is
not a JSON string array surfaces as a parse error instead); a successful
(200) response carrying an empty body or an empty hash sequence yields
the same `HashesNotReady`; and a response with any status other than
200/400 is never accepted in place — the loop retries past it.
-/
theorem getHashesForPlot_contract :
    (∀ rest, getHashesForPlot (.resp 400 .empty :: rest) = .notReady) ∧
    (∀ rest, getHashesForPlot (.resp 400 (.arr []) :: rest) = .notReady) ∧
    (∀ rest, getHashesForPlot (.resp 200 .empty :: rest) = .notReady) ∧
    (∀ rest, getHashesForPlot (.resp 200 (.arr []) :: rest) = .notReady) ∧
    (∀ status body rest, ¬ (status = 400 ∨ status = 200) → rest ≠ [] →
      getHashesForPlot (.resp status body :: rest) = getHashesForPlot rest) := by
  refine ⟨fun rest => ?_, fun rest => ?_, fun rest => ?_, fun rest => ?_,
    fun status body rest hs hr => ?_⟩
  · cases rest <;> simp [getHashesForPlot, apiRequest, hashesRetry]
  · cases rest <;> simp [getHashesForPlot, apiRequest, hashesRetry]
  · cases rest <;> simp [getHashesForPlot, apiRequest, hashesRetry]
  · cases rest <;> simp [getHashesForPlot, apiRequest, hashesRetry]
  · cases rest with
    | nil => cases hr rfl
    | cons a rest' =>
      simp [getHashesForPlot, apiRequest, hashesRetry, hs]

/-- Witness for C7: a 500 is retried and the following 200 with hashes is
accepted; a lone 400 with empty body reads as "hashes not ready". -/
theorem getHashesForPlot_contract_witness :
    getHashesForPlot [.resp 500 .other, .resp 200 (.arr ["a"])] =
      getHashesForPlot [.resp 200 (.arr ["a"])] ∧
    getHashesForPlot [.resp 400 .empty] = .notReady := by
  constructor
  · exact getHashesForPlot_contract.2.2.2.2 500 .other [.resp 200 (.arr ["a"])]
      (by norm_num) (by simp)
  · exact getHashesForPlot_contract.1 []

/-! ## C4 -/

/-- With no over-commitment and headroom below `2^63`, the allocator's
wrapped `uint64` availability agrees with exact subtraction. -/
theorem toInt64_u64Sub_exact (a : Nat) (c : Int) (h0 : 0 ≤ c) (hca : c ≤ a)
    (ha : a < 9223372036854775808) :
    toInt64 (u64Sub a (u64OfInt c)) = (a : Int) - c := by
  unfold toInt64 u64Sub u64OfInt u64Mod
  split_ifs <;> omega

/-- `uint64(plotSize)` is plain `toNat` for the sizes that occur. -/
theorem u64OfInt_eq_toNat (c : Int) (h0 : 0 ≤ c)
    (hc : c < 9223372036854775808) : u64OfInt c = c.toNat := by
  unfold u64OfInt u64Mod
  omega

/-- The resume pass agrees with the claim's exact-arithmetic reading when
no probed volume is over-committed and probes stay below `2^63`. -/
theorem resumePass_agrees (statSize : String → Option Int)
    (probe : String → Option (Nat × String)) (plotSize : Int)
    (claimed : List (String × Int)) :
    ∀ dirs : List String,
    (∀ d ∈ dirs, ∀ a v, probe d = some (a, v) →
      0 ≤ lookupClaimed claimed v ∧ (lookupClaimed claimed v) ≤ (a : Int) ∧
      a < 9223372036854775808) →
    Option.map Prod.fst (resumePass statSize probe plotSize claimed dirs) =
      specResumePass statSize probe plotSize claimed dirs := by
  intro dirs
  induction dirs with
  | nil => intro _; rfl
  | cons d rest ih =>
    intro hdirs
    have hrest := fun d' hd' => hdirs d' (List.mem_cons_of_mem _ hd')
    cases hst : statSize d with
    | none =>
      simp only [resumePass, specResumePass, hst]
      exact ih hrest
    | some sz =>
      cases hp : probe d with
      | none => simp [resumePass, specResumePass, hst, hp]
      | some av =>
        obtain ⟨a, v⟩ := av
        obtain ⟨h0, hca, ha⟩ := hdirs d (List.mem_cons_self d rest) a v hp
        have e1 := toInt64_u64Sub_exact a (lookupClaimed claimed v) h0 hca ha
        simp only [resumePass, specResumePass, hst, hp, e1]
        by_cases hcmp : plotSize - sz > (a : Int) - lookupClaimed claimed v
        · rw [if_pos hcmp, if_neg (by omega)]
          rfl
        · rw [if_neg hcmp, if_pos (by omega)]
          rfl

/-- The fresh-placement pass agrees with the claim's exact-arithmetic
reading under the same no-over-commitment hypotheses. -/
theorem freshPass_agrees (probe : String → Option (Nat × String))
    (plotSize : Int) (claimed : List (String × Int))
    (hplot0 : 0 ≤ plotSize) (hplot : plotSize < 9223372036854775808) :
    ∀ dirs : List String,
    (∀ d ∈ dirs, ∀ a v, probe d = some (a, v) →
      0 ≤ lookupClaimed claimed v ∧ (lookupClaimed claimed v) ≤ (a : Int) ∧
      a < 9223372036854775808) →
    (freshPass probe plotSize claimed dirs).1 =
      specFreshPass probe plotSize claimed dirs := by
  intro dirs
  induction dirs with
  | nil => intro _; rfl
  | cons d rest ih =>
    intro hdirs
    have hrest := fun d' hd' => hdirs d' (List.mem_cons_of_mem _ hd')
    cases hp : probe d with
    | none => simp [freshPass, specFreshPass, hp]
    | some av =>
      obtain ⟨a, v⟩ := av
      obtain ⟨h0, hca, ha⟩ := hdirs d (List.mem_cons_self d rest) a v hp
      have hiff : (u64OfInt plotSize >
          u64Sub a (u64OfInt (lookupClaimed claimed v))) ↔
          ¬ (plotSize ≤ (a : Int) - lookupClaimed claimed v) := by
        unfold u64Sub u64OfInt u64Mod
        omega
      simp only [freshPass, specFreshPass, hp]
      by_cases hcmp : u64OfInt plotSize >
          u64Sub a (u64OfInt (lookupClaimed claimed v))
      · rw [if_pos hcmp, if_neg (hiff.mp hcmp)]
        exact ih hrest
      · rw [if_neg hcmp, if_pos (not_not.mp (mt hiff.mpr hcmp))]

/--
Counterexample to C4 as frozen: one directory on volume `v1` whose probe
reports 100 free bytes while 150 bytes are already claimed on `v1` (the
probe shrank after the claim was recorded).  The claim's available space
is `100 - 150 = -50`, which cannot cover the 200-byte plot, so the claim
demands `ErrNotEnoughSpace`; the code's `uint64` subtraction wraps to
`2^64 - 50`, the capacity test passes, and the directory is chosen.
-/
theorem getPlotDownloadDirectory_overcommit_wrap :
    (getPlotDownloadDirectory (fun _ => none) (fun _ => some (100, "v1"))
        200 [("v1", 150)] ["d1"]).1 = .ok "d1" ∧
    specAllocation (fun _ => none) (fun _ => some (100, "v1"))
        200 [("v1", 150)] ["d1"] = .notEnoughSpace ∧
    ¬ ((200 : Int) ≤ (100 : Int) - 150) := by
  refine ⟨by decide, by decide, by decide⟩

/--
C4 (amended): provided no probed volume is over-committed (the bytes
claimed on it do not exceed its probed free bytes) and probe results and
the plot size stay below `2^63`, `getPlotDownloadDirectory` computes
exactly the claim's allocation rule: scan the configured directories in
order and return the first one already holding the plot's partial file
whose available space (probe result minus bytes claimed by other plots on
the same volume) covers the remaining bytes — `ErrNotEnoughSpace` without
trying further directories when that first partial-file directory lacks
capacity; with no partial file anywhere, the first directory whose
available space covers the full plot size, and otherwise
`ErrNotEnoughSpace`.  (Without the no-over-commitment hypothesis the
`uint64` subtraction wraps and the two sides disagree.)
-/
theorem getPlotDownloadDirectory_spec (statSize : String → Option Int)
    (probe : String → Option (Nat × String)) (plotSize : Int)
    (claimed : List (String × Int)) (dirs : List String)
    (hplot0 : 0 ≤ plotSize) (hplot : plotSize < 9223372036854775808)
    (hdirs : ∀ d ∈ dirs, ∀ a v, probe d = some (a, v) →
      0 ≤ lookupClaimed claimed v ∧ (lookupClaimed claimed v) ≤ (a : Int) ∧
      a < 9223372036854775808) :
    (getPlotDownloadDirectory statSize probe plotSize claimed dirs).1 =
      specAllocation statSize probe plotSize claimed dirs := by
  have hres := resumePass_agrees statSize probe plotSize claimed dirs hdirs
  unfold getPlotDownloadDirectory specAllocation
  cases hr : resumePass statSize probe plotSize claimed dirs with
  | none =>
    rw [hr] at hres
    rw [← hres]
    exact freshPass_agrees probe plotSize claimed hplot0 hplot dirs hdirs
  | some pr =>
    rw [hr] at hres
    rw [← hres]
    rfl

/-- Witness for C4 on the spec's two-directory scenario: 5 GB free on the
first drive, 50 GB on the second, 25 GB plot, no partial file anywhere:
the first directory is skipped and the second is chosen. -/
theorem getPlotDownloadDirectory_spec_witness :
    (getPlotDownloadDirectory (fun _ => none)
        (fun d => if d = "d1" then some (5000000000, "va")
          else some (50000000000, "vb"))
        25000000000 [] ["d1", "d2"]).1 = .ok "d2" ∧
    specAllocation (fun _ => none)
        (fun d => if d = "d1" then some (5000000000, "va")
          else some (50000000000, "vb"))
        25000000000 [] ["d1", "d2"] = .ok "d2" := by
  have h := getPlotDownloadDirectory_spec (fun _ => none)
    (fun d => if d = "d1" then some (5000000000, "va")
      else some (50000000000, "vb"))
    25000000000 [] ["d1", "d2"] (by norm_num) (by norm_num) ?_
  · refine ⟨?_, by decide⟩
    rw [h]
    decide
  · intro d hd a v hp
    fin_cases hd <;> simp_all [lookupClaimed] <;> omega

end Plotorder
